import Mathlib

/-!
# WordWave turn/validation engine — verification development

Shallow embedding of the WordWave word-chain game engine:

* `normalize_word`, `get_last_char`, `validate_word_chain` are translated from
  the SQL functions in
  `supabase/migrations/20250923000701_16d67995-782c-4f54-aeb6-3cae1d047ffe.sql`.
  PL/pgSQL `RETURN QUERY` appends a row to the result set and *continues*
  executing, so `validate_word_chain` is modelled as producing the full list of
  appended rows; its consumer (`submit_word` in
  `supabase/functions/game-actions/index.ts`) reads `validationResult?.[0]`,
  i.e. the first row, which is `validationOutcome` below.
* The client-side engine (`GameRoom` page: `startGame`, `nextTurn`,
  `handleWordSubmit`, `startTurnTimer`) and the solo scoring
  (`SoloGame.tsx`) are translated from the TypeScript sources.
* The sync coordinator's debounce logic is translated from
  `src/hooks/useGameSync.ts` (`fetchCompleteRoomData`).
* The external dictionary validator is translated from the
  `useExternalDictionary` hook, with the network responses as an oracle
  parameter.

Machine integers of the source (JS numbers on integral values, SQL INTEGER)
are modelled as `Int`/`Nat`; the scoring expressions only ever produce exact
integral intermediate values in the ranges exercised, so no overflow or
floating-point rounding is modelled.
-/

namespace WordWave

/-! ## Word normalization -/

/-- ASCII letter test: the character class kept by the SQL regex replace
`REGEXP_REPLACE(word, '[^a-zA-Z]', '', 'g')`. -/
def isAsciiLetter (c : Char) : Bool :=
  ('a' ≤ c && c ≤ 'z') || ('A' ≤ c && c ≤ 'Z')

/-- SQL `public.normalize_word`:
`LOWER(TRIM(REGEXP_REPLACE(word, '[^a-zA-Z]', '', 'g')))`.
After every non-letter is removed there is no whitespace left, so `TRIM` is
the identity and is omitted. `Char.toLower` lowercases exactly ASCII
uppercase letters, matching SQL `LOWER` on the `a-zA-Z` range that survives
the replace. -/
def normalize_word (word : String) : String :=
  ((word.toList.filter isAsciiLetter).map Char.toLower).asString

/-- JS `word.trim()`: strip leading and trailing whitespace. -/
def jsTrim (s : String) : String :=
  ((s.toList.dropWhile Char.isWhitespace).reverse.dropWhile Char.isWhitespace).reverse.asString

/-- JS `word.toLowerCase()`, lowercasing ASCII letters (every non-ASCII
character is removed by the `[^a-z]` filter that always follows). -/
def jsToLower (s : String) : String :=
  (s.toList.map Char.toLower).asString

/-- Client-side normalization as written in the TypeScript sources
(`word.trim()`, then `.toLowerCase().replace(/[^a-z]/g, "")`). -/
def jsNormalize (word : String) : String :=
  (((jsTrim word).toList.map Char.toLower).filter fun c => 'a' ≤ c && c ≤ 'z').asString

/-- SQL `public.get_last_char`: normalize, return `''` on empty, else the
last character (`RIGHT(normalized_word, 1)`). -/
def get_last_char (word : String) : String :=
  let n := normalize_word word
  if n.length = 0 then "" else n.takeRight 1

/-! ## The store's move rows, as seen by the validator

`validate_word_chain` reads `game_moves` rows of one room, ordered by
`created_at`; only the `normalized_word` and `is_valid` columns are
consulted. A room history is the list of those rows in `created_at`
ascending order. -/

structure Move where
  normalized_word : String
  is_valid : Bool
deriving Repr, DecidableEq

/-- `SELECT normalized_word … WHERE is_valid = true ORDER BY created_at DESC
LIMIT 1` — the last valid move's stored normalized word, if any. -/
def lastValidWord (history : List Move) : Option String :=
  ((history.filter fun m => m.is_valid).getLast?).map fun m => m.normalized_word

/-- One row of the `RETURNS TABLE(is_valid, reason, required_start_char)`
result set of `validate_word_chain`. -/
structure ValidationRow where
  is_valid : Bool
  reason : String
  required_start_char : String
deriving Repr, DecidableEq

/-- The chain test exactly as in the SQL function body: there is a prior
valid word and `LEFT(normalized_new_word, 1) != get_last_char(prior)`. -/
def chainViolated (history : List Move) (n : String) : Bool :=
  match lastValidWord history with
  | some w => n.take 1 ≠ get_last_char w
  | none => false

/-- The duplicate test of the SQL function body: `COUNT(*) > 0` over
`WHERE gm.room_id = … AND gm.normalized_word = normalized_new_word`.
Note the query has no `is_valid` filter: every recorded move counts. -/
def isDuplicate (history : List Move) (n : String) : Bool :=
  0 < (history.filter fun m => m.normalized_word = n).length

/-- SQL `public.validate_word_chain(room_id, new_word)`, with the room's
`game_moves` rows passed as `history` and the `dictionary_words` table as
`dict`. Each `RETURN QUERY SELECT …` of the PL/pgSQL body appends one row
and execution continues to the next statement, so the result is the
concatenation of the rows of every failed check followed by the final
`TRUE, 'valid'` row. `required_char` is `''` until the chain branch runs
and is the prior word's last character afterwards, exactly as the declared
variable in the source. -/
def validate_word_chain (dict : List String) (history : List Move)
    (new_word : String) : List ValidationRow :=
  let n := normalize_word new_word
  let required_char : String := (lastValidWord history).elim "" get_last_char
  (if n.length = 0 then [⟨false, "empty_word", ""⟩] else []) ++
  (if chainViolated history n then [⟨false, "chain_mismatch", required_char⟩] else []) ++
  (if isDuplicate history n then [⟨false, "duplicate_word", required_char⟩] else []) ++
  (if dict.contains n then [] else [⟨false, "not_in_dictionary", required_char⟩]) ++
  [⟨true, "valid", required_char⟩]

/-- The validation outcome the engine consumes: `submit_word` in
`game-actions/index.ts` reads `validationResult?.[0]`, the first row of the
function's result set. The result set always ends with the `'valid'` row,
so it is never empty and the default of `headD` is irrelevant. -/
def validationOutcome (dict : List String) (history : List Move)
    (new_word : String) : ValidationRow :=
  (validate_word_chain dict history new_word).headD ⟨true, "valid", ""⟩

example : validationOutcome ["rain"] [⟨"cyber", true⟩] "Rain" =
    ⟨true, "valid", "r"⟩ := by decide

example : validationOutcome ["storm"] [⟨"cyber", true⟩] "storm" =
    ⟨false, "chain_mismatch", "r"⟩ := by decide

example : validationOutcome [] [] "9!!" = ⟨false, "empty_word", ""⟩ := by decide

/-! ## C1 — fixed, short-circuiting order of the validator checks -/

/-- C1. The word-submission validator applies its checks in the fixed order
empty → chain → duplicate → dictionary, each short-circuiting, as observed
through the consumed first result row: a word whose normalized form has zero
length always yields `empty_word` (whatever the history, so also when it
would be a duplicate); a chain violation yields `chain_mismatch` whether or
not the word is also a duplicate; a duplicate with the chain satisfied
yields `duplicate_word`; and the outcome depends on the dictionary only when
empty, chain and duplicate checks all pass (last conjunct: with any earlier
check failing, the outcome is the same for every dictionary). -/
theorem C1_validation_check_order (dict : List String) (history : List Move)
    (w : String) :
    ((normalize_word w).length = 0 →
      validationOutcome dict history w = ⟨false, "empty_word", ""⟩)
    ∧ ((normalize_word w).length ≠ 0 →
      chainViolated history (normalize_word w) = true →
      (validationOutcome dict history w).reason = "chain_mismatch")
    ∧ ((normalize_word w).length ≠ 0 →
      chainViolated history (normalize_word w) = false →
      isDuplicate history (normalize_word w) = true →
      (validationOutcome dict history w).reason = "duplicate_word")
    ∧ ((normalize_word w).length ≠ 0 →
      chainViolated history (normalize_word w) = false →
      isDuplicate history (normalize_word w) = false →
      (validationOutcome dict history w).reason =
        (if dict.contains (normalize_word w) then "valid" else "not_in_dictionary"))
    ∧ (∀ dict₂ : List String,
      ((normalize_word w).length = 0 ∨ chainViolated history (normalize_word w) = true
        ∨ isDuplicate history (normalize_word w) = true) →
      validationOutcome dict history w = validationOutcome dict₂ history w) := by
  refine ⟨?_, ?_, ?_, ?_, ?_⟩
  · intro h
    simp [validationOutcome, validate_word_chain, h]
  · intro h hc
    simp [validationOutcome, validate_word_chain, h, hc]
  · intro h hc hd
    simp [validationOutcome, validate_word_chain, h, hc, hd]
  · intro h hc hd
    by_cases hdict : normalize_word w ∈ dict <;>
      simp [validationOutcome, validate_word_chain, h, hc, hd, hdict]
  · intro dict₂ hfail
    rcases hfail with h | h | h
    · simp [validationOutcome, validate_word_chain, h]
    · simp [validationOutcome, validate_word_chain, h]
    · by_cases hc : chainViolated history (normalize_word w) <;>
      by_cases he : (normalize_word w).length = 0 <;>
        simp [validationOutcome, validate_word_chain, h, hc, he]

/-- C1 witness: concrete application of `C1_validation_check_order`. With
history `[cyber (valid)]` and candidate `"storm"` (chain violated, also not
a duplicate), the outcome is `chain_mismatch`; with candidate `"9!!"`
(normalizes to empty) the outcome is `empty_word`. -/
theorem C1_validation_check_order_witness :
    (validationOutcome ["storm"] [⟨"cyber", true⟩] "storm").reason = "chain_mismatch"
    ∧ validationOutcome [] [⟨"cyber", true⟩] "9!!" = ⟨false, "empty_word", ""⟩ :=
  ⟨(C1_validation_check_order ["storm"] [⟨"cyber", true⟩] "storm").2.1
      (by decide) (by decide),
   (C1_validation_check_order [] [⟨"cyber", true⟩] "9!!").1 (by decide)⟩

/-! ## C2 — the chain rule -/

/-- `chainViolated` unfolded to an existential over the prior word. -/
theorem chainViolated_iff (history : List Move) (n : String) :
    chainViolated history n = true ↔
      ∃ p, lastValidWord history = some p ∧ n.take 1 ≠ get_last_char p := by
  unfold chainViolated
  cases h : lastValidWord history with
  | none => simp
  | some p => simp [h]

/-- C2 counterexample. The claim states that a room whose prior accepted
word normalizes to the empty string imposes no chain constraint. In the
code, such a prior word makes `get_last_char` return `''`, and
`LEFT(normalized_new_word, 1) != ''` is true for every non-empty candidate,
so the constraint is not only enforced but unsatisfiable: with history
`[⟨"", valid⟩]` the candidate `"rain"` (in the dictionary, not a duplicate)
is rejected as `chain_mismatch` instead of passing through to `valid`. -/
theorem C2_counterexample :
    lastValidWord [⟨"", true⟩] = some "" ∧ normalize_word "" = "" ∧
    validationOutcome ["rain"] [⟨"", true⟩] "rain" =
      ⟨false, "chain_mismatch", ""⟩ := by decide

/-- C2 (amended). For every candidate with non-empty normalized form,
validation returns `chain_mismatch` exactly when the room has a prior
accepted word and the first letter of the candidate's normalized form
differs from `get_last_char` of that prior word (its normalized form's last
letter, or `''` when that normalized form is empty — in which case every
candidate mismatches, i.e. a prior accepted word that normalizes to the
empty string makes the chain constraint unsatisfiable rather than absent).
A room with no prior accepted word imposes no chain constraint. -/
theorem C2_chain_rule (dict : List String) (history : List Move) (w : String)
    (hw : (normalize_word w).length ≠ 0) :
    (validationOutcome dict history w).reason = "chain_mismatch" ↔
      ∃ p, lastValidWord history = some p ∧
        (normalize_word w).take 1 ≠ get_last_char p := by
  rw [← chainViolated_iff]
  constructor
  · intro h
    by_contra hc
    rw [Bool.not_eq_true] at hc
    by_cases hd : isDuplicate history (normalize_word w) = true
    · rw [(C1_validation_check_order dict history w).2.2.1 hw hc hd] at h
      simp at h
    · rw [Bool.not_eq_true] at hd
      rw [(C1_validation_check_order dict history w).2.2.2.1 hw hc hd] at h
      split_ifs at h <;> simp at h
  · exact (C1_validation_check_order dict history w).2.1 hw

/-- C2 witness: with prior accepted word `"cyber"`, submitting `"storm"`
is a chain mismatch (via `C2_chain_rule`), while `"Rain"` is accepted. -/
theorem C2_chain_rule_witness :
    (validationOutcome ["storm"] [⟨"cyber", true⟩] "storm").reason = "chain_mismatch"
    ∧ validationOutcome ["rain"] [⟨"cyber", true⟩] "Rain" = ⟨true, "valid", "r"⟩ :=
  ⟨(C2_chain_rule ["storm"] [⟨"cyber", true⟩] "storm" (by decide)).mpr
      ⟨"cyber", by decide, by decide⟩,
   by decide⟩

/-! ## C3 — the duplicate rule -/

/-- `isDuplicate` unfolded to membership among the normalized words of all
recorded moves. -/
theorem isDuplicate_iff (history : List Move) (n : String) :
    isDuplicate history n = true ↔
      n ∈ history.map fun m => m.normalized_word := by
  unfold isDuplicate
  rw [decide_eq_true_iff, List.length_pos, Ne, List.filter_eq_nil_iff]
  simp [eq_comm]

/-- C3 counterexample. The claim states the duplicate check compares
against the room's *valid-move* history. The query in the code has no
`is_valid` filter: with a single recorded move `"echo"` that was *invalid*
(so the valid-move history is empty, and there is no prior valid word to
constrain the chain), submitting `"Echo!"` — in the dictionary — is rejected
as `duplicate_word`, where the claim requires it to be accepted. -/
theorem C3_counterexample :
    (([⟨"echo", false⟩] : List Move).filter fun m => m.is_valid) = [] ∧
    validationOutcome ["echo"] [⟨"echo", false⟩] "Echo!" =
      ⟨false, "duplicate_word", ""⟩ := by decide

/-- C3 (amended). For every candidate that is non-empty after normalization
and satisfies the chain rule, validation returns `duplicate_word` if and
only if the candidate's normalized form already appears among the
normalized words of *all of this room's recorded moves, valid or invalid*
(the duplicate query does not filter on validity), compared by case- and
format-insensitive exact equality. (After a *valid* `"Echo"`, the claim's
example `"ECHO!"` does not reach the duplicate check at all: it fails the
chain rule first, since `e ≠ o`.) -/
theorem C3_duplicate_rule (dict : List String) (history : List Move) (w : String)
    (hw : (normalize_word w).length ≠ 0)
    (hchain : chainViolated history (normalize_word w) = false) :
    (validationOutcome dict history w).reason = "duplicate_word" ↔
      normalize_word w ∈ history.map fun m => m.normalized_word := by
  rw [← isDuplicate_iff]
  constructor
  · intro h
    by_contra hd
    rw [Bool.not_eq_true] at hd
    rw [(C1_validation_check_order dict history w).2.2.2.1 hw hchain hd] at h
    split_ifs at h <;> simp at h
  · exact (C1_validation_check_order dict history w).2.2.1 hw hchain

/-- C3 witness: prior moves are a valid `"echo"` and an *invalid* `"orb"`;
`"Orb!"` satisfies the chain rule (starts with the `o` ending `"echo"`) and
is rejected as a duplicate of the recorded invalid move, via
`C3_duplicate_rule`. -/
theorem C3_duplicate_rule_witness :
    (validationOutcome ["orb"] [⟨"echo", true⟩, ⟨"orb", false⟩] "Orb!").reason =
      "duplicate_word" :=
  (C3_duplicate_rule ["orb"] [⟨"echo", true⟩, ⟨"orb", false⟩] "Orb!"
    (by decide) (by decide)).mpr (by decide)


/-! ## Scoring (C4)

`handleWordSubmit` in the `GameRoom` page computes, for a valid move,
`basePoints = normalizedWord.length` and
`speedBonus = Math.max(0, Math.ceil(((rts*1000 - timeTaken) / (rts*1000)) * 5))`;
`SoloGame.tsx` computes `basePoints = trimmedWord.length`,
`timeBonus = Math.max(0, Math.ceil((T - timeTaken/1000) / T * 10))` and
`streakBonus = Math.floor(currentStreak / 5) * 5`. The JS arithmetic is
modelled exactly over ℚ: `Math.ceil (a / b)` for integral `a` and `0 < b`
is the integer ceiling, embedded computably as `jsCeilDiv` below and
characterised against `Int.ceil` over ℚ by `jsCeilDiv_eq_ceil`. -/

/-- `Math.ceil (a / b)` for integers `a`, `b` with `0 < b`, over exact
arithmetic: the integer ceiling of `a / b`, computed as `-((-a) / b)` with
Euclidean integer division. -/
def jsCeilDiv (a b : Int) : Int := -((-a) / b)

/-- `jsCeilDiv` is the ceiling of the rational quotient. -/
theorem jsCeilDiv_eq_ceil (a b : Int) (hb : 0 < b) :
    jsCeilDiv a b = ⌈(a : ℚ) / b⌉ := by
  obtain ⟨d, rfl⟩ : ∃ d : ℕ, b = (d : Int) := ⟨b.toNat, (Int.toNat_of_nonneg hb.le).symm⟩
  have h : -((a : ℚ) / (d : ℚ)) = ((-a : ℤ) : ℚ) / ((d : ℕ) : ℚ) := by
    push_cast
    ring
  calc jsCeilDiv a d = -((-a) / (d : ℤ)) := rfl
    _ = -⌊((-a : ℤ) : ℚ) / ((d : ℕ) : ℚ)⌋ := by rw [Rat.floor_intCast_div_natCast]
    _ = -⌊-((a : ℚ) / (d : ℚ))⌋ := by rw [h]
    _ = ⌈(a : ℚ) / (d : ℚ)⌉ := by rw [Int.floor_neg, neg_neg]

/-- Multiplayer speed bonus (`GameRoom` page, `handleWordSubmit`):
`Math.max(0, Math.ceil(((room.round_time_seconds * 1000 - timeTaken) /
(room.round_time_seconds * 1000)) * 5))`, with the quotient times 5 turned
into the single integer ceiling `⌈5·(B - t) / B⌉`. -/
def mpSpeedBonus (round_time_seconds timeTakenMs : Int) : Int :=
  max 0 (jsCeilDiv (5 * (round_time_seconds * 1000 - timeTakenMs))
    (round_time_seconds * 1000))

/-- Multiplayer points for a valid move: `normalizedWord.length + speedBonus`. -/
def mpPoints (normalizedLength : Nat) (round_time_seconds timeTakenMs : Int) : Int :=
  normalizedLength + mpSpeedBonus round_time_seconds timeTakenMs

/-- `mpSpeedBonus` written exactly as the source expression over ℚ. -/
theorem mpSpeedBonus_eq_ceil (rts t : Int) (h : 0 < rts) :
    mpSpeedBonus rts t =
      max 0 ⌈((rts * 1000 - t : Int) : ℚ) / ((rts * 1000 : Int) : ℚ) * 5⌉ := by
  have hB : (0 : Int) < rts * 1000 := by positivity
  have hB' : ((rts * 1000 : Int) : ℚ) ≠ 0 := by exact_mod_cast hB.ne'
  rw [mpSpeedBonus, jsCeilDiv_eq_ceil _ _ hB]
  congr 2
  push_cast
  field_simp
  ring

/-- Solo time bonus (`SoloGame.tsx`, `handleWordSubmit`):
`Math.max(0, Math.ceil((totalTime - timeTaken / 1000) / totalTime * 10))`
with `totalTime` the difficulty time limit in seconds, rewritten over a
common denominator as `⌈10·(1000·T - t) / (1000·T)⌉`. -/
def soloTimeBonus (timeLimitSeconds timeTakenMs : Int) : Int :=
  max 0 (jsCeilDiv (10 * (1000 * timeLimitSeconds - timeTakenMs))
    (1000 * timeLimitSeconds))

/-- Solo streak bonus: `Math.floor(stats.currentStreak / 5) * 5`. -/
def soloStreakBonus (currentStreak : Nat) : Nat := currentStreak / 5 * 5

/-- Solo points: `basePoints + timeBonus + streakBonus`, with
`basePoints = trimmedWord.length`. -/
def soloPoints (wordLength : Nat) (timeLimitSeconds timeTakenMs : Int)
    (currentStreak : Nat) : Int :=
  wordLength + soloTimeBonus timeLimitSeconds timeTakenMs +
    soloStreakBonus currentStreak

/-- `soloTimeBonus` written exactly as the source expression over ℚ. -/
theorem soloTimeBonus_eq_ceil (T t : Int) (h : 0 < T) :
    soloTimeBonus T t =
      max 0 ⌈((T : ℚ) - (t : ℚ) / 1000) / (T : ℚ) * 10⌉ := by
  have hB : (0 : Int) < 1000 * T := by positivity
  have hT : (T : ℚ) ≠ 0 := by exact_mod_cast h.ne'
  rw [soloTimeBonus, jsCeilDiv_eq_ceil _ _ hB]
  congr 2
  push_cast
  field_simp
  ring

/-- C4 counterexample. The claim states that any negative `timeTakenMs`
clamps the time bonus to its maximum 5. The code has no upper clamp —
only `Math.max(0, ·)` — so `timeTakenMs = -3000` with a 15-second budget
gives `ceil(18000 / 15000 * 5) = 6 > 5`. -/
theorem C4_counterexample : mpSpeedBonus 15 (-3000) = 6 := by decide

/-- C4 (amended). Multiplayer: points for a valid submission are
`L + timeBonus` with `timeBonus = max(0, ceil((rts*1000 - t) / (rts*1000) * 5))`
(stated over ℚ exactly as the source expression); `t = 0` gives bonus 5,
`t` at or beyond the budget gives 0, and the examples `L=5, rts=15` give
10 points at `t=0` and 5 points at `t=15000`; but a negative `t` is not
clamped to 5 — the bonus then strictly exceeds 5. Single-player adds
`streakBonus = floor(S/5)*5` on top of its own time bonus, which uses
multiplier 10 (not 5) over seconds with the difficulty time limit as the
budget (`t = 0` gives 10); multiplayer has no streak term. -/
theorem C4_scoring :
    (∀ (len : Nat) (rts t : Int), mpPoints len rts t = len + mpSpeedBonus rts t)
    ∧ (∀ rts t : Int, 0 < rts → mpSpeedBonus rts t =
        max 0 ⌈((rts * 1000 - t : Int) : ℚ) / ((rts * 1000 : Int) : ℚ) * 5⌉)
    ∧ (∀ rts : Int, 0 < rts → mpSpeedBonus rts 0 = 5)
    ∧ (∀ rts t : Int, 0 < rts → rts * 1000 ≤ t → mpSpeedBonus rts t = 0)
    ∧ (∀ rts t : Int, 0 < rts → t < 0 → 5 < mpSpeedBonus rts t)
    ∧ mpPoints 5 15 0 = 10 ∧ mpPoints 5 15 15000 = 5
    ∧ (∀ (len : Nat) (T t : Int) (s : Nat),
        soloPoints len T t s = len + soloTimeBonus T t + (s / 5 * 5 : Nat))
    ∧ (∀ T t : Int, 0 < T → soloTimeBonus T t =
        max 0 ⌈((T : ℚ) - (t : ℚ) / 1000) / (T : ℚ) * 10⌉)
    ∧ (∀ T : Int, 0 < T → soloTimeBonus T 0 = 10) := by
  have hzero : ∀ rts : Int, 0 < rts → mpSpeedBonus rts 0 = 5 := by
    intro rts h
    have hB : (0 : Int) < rts * 1000 := by positivity
    have hB' : ((rts * 1000 : Int) : ℚ) ≠ 0 := by exact_mod_cast hB.ne'
    rw [mpSpeedBonus_eq_ceil rts 0 h, sub_zero, div_self hB', one_mul]
    norm_num
  refine ⟨fun _ _ _ => rfl, mpSpeedBonus_eq_ceil, hzero, ?_, ?_, by decide, by decide,
    fun _ _ _ _ => rfl, soloTimeBonus_eq_ceil, ?_⟩
  · intro rts t h ht
    have hB : (0 : Int) < rts * 1000 := by positivity
    have hBQ : (0 : ℚ) < ((rts * 1000 : Int) : ℚ) := by exact_mod_cast hB
    rw [mpSpeedBonus_eq_ceil rts t h]
    apply max_eq_left
    rw [Int.ceil_le]
    have hnum : ((rts * 1000 - t : Int) : ℚ) ≤ 0 := by
      have hnum' : (rts * 1000 - t : Int) ≤ 0 := by omega
      exact_mod_cast hnum'
    calc ((rts * 1000 - t : Int) : ℚ) / ((rts * 1000 : Int) : ℚ) * 5
        ≤ 0 := mul_nonpos_of_nonpos_of_nonneg
          (div_nonpos_of_nonpos_of_nonneg hnum hBQ.le) (by norm_num)
      _ ≤ ((0 : Int) : ℚ) := by norm_num
  · intro rts t h ht
    have hB : (0 : Int) < rts * 1000 := by positivity
    have hBQ : (0 : ℚ) < ((rts * 1000 : Int) : ℚ) := by exact_mod_cast hB
    rw [mpSpeedBonus_eq_ceil rts t h]
    have h1 : (1 : ℚ) < ((rts * 1000 - t : Int) : ℚ) / ((rts * 1000 : Int) : ℚ) := by
      rw [one_lt_div hBQ]
      have hlt : (rts * 1000 : Int) < rts * 1000 - t := by omega
      exact_mod_cast hlt
    have h5 : (5 : ℚ) < ((rts * 1000 - t : Int) : ℚ) / ((rts * 1000 : Int) : ℚ) * 5 := by
      nlinarith
    have hceil : (5 : Int) < ⌈((rts * 1000 - t : Int) : ℚ) / ((rts * 1000 : Int) : ℚ) * 5⌉ := by
      rw [Int.lt_ceil]
      exact_mod_cast h5
    exact lt_of_lt_of_le hceil (le_max_right 0 _)
  · intro T h
    have hT : (T : ℚ) ≠ 0 := by exact_mod_cast h.ne'
    rw [soloTimeBonus_eq_ceil T 0 h]
    norm_num [div_self hT]

/-- C4 witness: concrete applications of `C4_scoring` at a 20-second budget
and the examples from the claim. -/
theorem C4_scoring_witness :
    mpSpeedBonus 20 0 = 5 ∧ mpSpeedBonus 20 20000 = 0 ∧ 5 < mpSpeedBonus 20 (-1)
    ∧ mpPoints 5 15 0 = 10 ∧ mpPoints 5 15 15000 = 5 ∧ soloTimeBonus 20 0 = 10 :=
  ⟨C4_scoring.2.2.1 20 (by decide),
   C4_scoring.2.2.2.1 20 20000 (by decide) (by decide),
   C4_scoring.2.2.2.2.1 20 (-1) (by decide) (by decide),
   C4_scoring.2.2.2.2.2.1,
   C4_scoring.2.2.2.2.2.2.1,
   C4_scoring.2.2.2.2.2.2.2.2.2 20 (by decide)⟩


/-! ## Room, players, game start (C5) and turn advance (C6)

The `GameRoom` page fetches the room with its players sorted by
`turn_order` ascending. `turn_order` values are unique per room (one row
per (room, user) pair and join-time assignment), and the host receives
`turn_order = 0` when the room is created while every later joiner
receives `turn_order = current player count ≥ 1` — so in a reachable
lobby room the host is the head of the sorted player list. -/

structure Player where
  user_id : String
  turn_order : Int
deriving Repr, DecidableEq

inductive RoomStatus
  | lobby
  | in_game
  | finished
deriving Repr, DecidableEq

structure Room where
  host_id : String
  round_time_seconds : Int
  status : RoomStatus
  current_player_turn : Option String
  last_word : Option String
  players : List Player
deriving Repr, DecidableEq

/-- `Math.min(...room.players.filter(p => p.user_id !== room.host_id)
.map(p => p.turn_order))` — `none` models JS `Infinity` on the empty
spread, which can never equal an integer `turn_order`. -/
def minNonHostOrder (host_id : String) (players : List Player) : Option Int :=
  ((players.filter fun p => p.user_id != host_id).map fun p => p.turn_order).min?

/-- `startGame` (GameRoom page): `room.players.find(p => p.user_id !==
room.host_id && p.turn_order === Math.min(...)) || room.players[1]` — the
non-host player with the minimal non-host `turn_order`, falling back to
the second player of the sorted list. -/
def firstPlayer (host_id : String) (players : List Player) : Option Player :=
  match players.find? (fun p =>
      p.user_id != host_id && (minNonHostOrder host_id players == some p.turn_order)) with
  | some p => some p
  | none => players[1]?

/-- The writes `startGame` performs on success: the `game_rooms` update
(status, `current_round`, `current_player_turn`, `last_word: null`) and
the `game_rounds` insert of round number 1. -/
structure StartGameEffect where
  status : RoomStatus
  current_round : Int
  current_player_turn : Option String
  last_word : Option String
  roundsCreated : List Int
deriving Repr, DecidableEq

/-- `startGame` (GameRoom page): rejects when the actor is not the host
(`room.host_id !== appUser.id`) or fewer than 2 players are in the room
(`room.players.length < 2`); otherwise updates the room to `in_game` with
`current_round = 1`, `current_player_turn = firstPlayer?.user_id` and
`last_word = null`, and inserts Round #1. -/
def startGame (actor : String) (room : Room) : Option StartGameEffect :=
  if actor != room.host_id then none
  else if room.players.length < 2 then none
  else some
    { status := RoomStatus.in_game
      current_round := 1
      current_player_turn := (firstPlayer room.host_id room.players).map fun p => p.user_id
      last_word := none
      roundsCreated := [1] }

/-- `nextTurn` (GameRoom page):
`players.findIndex(p => p.user_id === room.current_player_turn)` (−1 when
absent) then `(index + 1) % players.length`; in JS `(-1 + 1) % n = 0`,
modelled by the `none` branch. -/
def nextTurnIndex (players : List Player) (currentId : Option String) : Nat :=
  match players.findIdx? (fun p => currentId == some p.user_id) with
  | some i => (i + 1) % players.length
  | none => 0

/-- The player who receives the turn: `players[nextPlayerIndex]`. -/
def nextTurnPlayer (players : List Player) (currentId : Option String) : Option Player :=
  players[nextTurnIndex players currentId]?

/-- A non-empty player list always yields a next player: the advanced
index is `(i + 1) % length` or the fallback 0, both in range. -/
theorem nextTurnPlayer_isSome (players : List Player) (currentId : Option String)
    (hne : players ≠ []) : (nextTurnPlayer players currentId).isSome = true := by
  have hlen : 0 < players.length := List.length_pos.mpr hne
  unfold nextTurnPlayer nextTurnIndex
  cases hfind : players.findIdx? (fun p => currentId == some p.user_id) with
  | none =>
    rw [List.getElem?_eq_getElem hlen]
    rfl
  | some i =>
    rw [List.getElem?_eq_getElem (Nat.mod_lt _ hlen)]
    rfl

/-- In a sorted player list headed by the host, with per-room user
uniqueness, `firstPlayer` is exactly the second entry — the player
immediately after the host in turn order. -/
theorem firstPlayer_host_head (host : String) (h0 p1 : Player) (rest : List Player)
    (hhost : h0.user_id = host)
    (hnodup : (((h0 :: p1 :: rest).map fun p => p.user_id).Nodup))
    (hsorted : (h0 :: p1 :: rest).Pairwise fun a b => a.turn_order < b.turn_order) :
    firstPlayer host (h0 :: p1 :: rest) = some p1 := by
  have htail : ∀ q ∈ p1 :: rest, q.user_id ≠ host := by
    intro q hq hqe
    have hmem : host ∈ (p1 :: rest).map fun p => p.user_id :=
      hqe ▸ List.mem_map_of_mem _ hq
    rw [List.map_cons, List.nodup_cons, hhost] at hnodup
    exact hnodup.1 hmem
  have hfilter : (h0 :: p1 :: rest).filter (fun p => p.user_id != host) = p1 :: rest := by
    rw [List.filter_cons_of_neg (by simp [hhost]), List.filter_eq_self.mpr]
    intro a ha
    simpa using htail a ha
  have hmin : minNonHostOrder host (h0 :: p1 :: rest) = some p1.turn_order := by
    unfold minNonHostOrder
    rw [hfilter]
    haveI : Std.Antisymm ((· : Int) ≤ ·) := ⟨fun h1 h2 => le_antisymm h1 h2⟩
    apply (List.min?_eq_some_iff le_refl min_choice (fun _ _ _ => le_min_iff)).mpr
    constructor
    · simp
    · intro b hb
      simp only [List.map_cons, List.mem_cons, List.mem_map] at hb
      rcases hb with rfl | ⟨q, hq, rfl⟩
      · exact le_refl _
      · exact le_of_lt ((List.pairwise_cons.mp (List.pairwise_cons.mp hsorted).2).1 q hq)
  unfold firstPlayer
  rw [List.find?_cons_of_neg _ (by simp [hhost]),
    List.find?_cons_of_pos _ (by simp [hmin, htail p1 (List.mem_cons_self p1 rest)])]

/-- C5. `startGame` rejects any non-host actor and any room with fewer
than 2 players (in particular a 1-player room); for a room whose player
list is sorted by `turn_order`, has pairwise-distinct users, and is
headed by the host (the reachable-room invariant: the host gets
`turn_order = 0` at room creation, later joiners get the current player
count), a start by the host succeeds, sets the status to `in_game`, sets
`current_round` to 1, creates exactly Round #1, and hands the first turn
to the player immediately after the host in turn order — never to the
host. -/
theorem C5_start_game :
    (∀ (actor : String) (room : Room), actor ≠ room.host_id →
      startGame actor room = none)
    ∧ (∀ (actor : String) (room : Room), room.players.length < 2 →
      startGame actor room = none)
    ∧ (∀ (room : Room) (h0 p1 : Player) (rest : List Player),
      room.players = h0 :: p1 :: rest →
      h0.user_id = room.host_id →
      ((room.players.map fun p => p.user_id).Nodup) →
      (room.players.Pairwise fun a b => a.turn_order < b.turn_order) →
      startGame room.host_id room =
        some ⟨RoomStatus.in_game, 1, some p1.user_id, none, [1]⟩
      ∧ p1.user_id ≠ room.host_id) := by
  refine ⟨?_, ?_, ?_⟩
  · intro actor room h
    unfold startGame
    rw [if_pos (by simpa using h)]
  · intro actor room h
    simp [startGame, h]
  · intro room h0 p1 rest hp hhost hnodup hsorted
    rw [hp] at hnodup hsorted
    have hfp := firstPlayer_host_head room.host_id h0 p1 rest hhost hnodup hsorted
    have hne : p1.user_id ≠ room.host_id := by
      intro hqe
      rw [List.map_cons, List.nodup_cons, hhost] at hnodup
      exact hnodup.1 (hqe ▸ List.mem_map_of_mem _ (List.mem_cons_self p1 rest))
    refine ⟨?_, hne⟩
    unfold startGame
    rw [if_neg (by simp), if_neg (by simp [hp]), hp, hfp]
    rfl

/-- C5 witness: a host-started 3-player room hands the first turn to the
second player (`"a"`), not the host; a non-host actor and a 1-player room
are rejected — all through `C5_start_game`. -/
theorem C5_start_game_witness :
    startGame "h" { host_id := "h", round_time_seconds := 15, status := RoomStatus.lobby,
                    current_player_turn := none, last_word := none,
                    players := [⟨"h", 0⟩, ⟨"a", 1⟩, ⟨"b", 2⟩] } =
      some ⟨RoomStatus.in_game, 1, some "a", none, [1]⟩
    ∧ startGame "x" { host_id := "h", round_time_seconds := 15, status := RoomStatus.lobby,
                      current_player_turn := none, last_word := none,
                      players := [⟨"h", 0⟩, ⟨"a", 1⟩, ⟨"b", 2⟩] } = none
    ∧ startGame "h" { host_id := "h", round_time_seconds := 15, status := RoomStatus.lobby,
                      current_player_turn := none, last_word := none,
                      players := [⟨"h", 0⟩] } = none :=
  ⟨(C5_start_game.2.2 { host_id := "h", round_time_seconds := 15,
                        status := RoomStatus.lobby, current_player_turn := none,
                        last_word := none,
                        players := [⟨"h", 0⟩, ⟨"a", 1⟩, ⟨"b", 2⟩] }
      ⟨"h", 0⟩ ⟨"a", 1⟩ [⟨"b", 2⟩] rfl rfl (by decide) (by decide)).1,
   C5_start_game.1 "x" _ (by decide),
   C5_start_game.2.1 "h" _ (by decide)⟩

/-- C6. For a player list with pairwise-distinct users: advancing from
the player at index `i` hands the turn to the player at
`(i + 1) % n`; when the current turn holder is not in the list (for
example having left), the advance falls back to the player at index 0;
and on a non-empty list the advance always produces a player. -/
theorem C6_next_turn :
    (∀ (players : List Player),
      ((players.map fun p => p.user_id).Nodup) →
      ∀ i : Fin players.length,
        nextTurnPlayer players (some players[i].user_id) =
          players[(i.val + 1) % players.length]?)
    ∧ (∀ (players : List Player) (currentId : Option String),
      (∀ p ∈ players, some p.user_id ≠ currentId) →
      nextTurnPlayer players currentId = players[0]?)
    ∧ (∀ (players : List Player) (currentId : Option String),
      players ≠ [] → (nextTurnPlayer players currentId).isSome = true) := by
  refine ⟨?_, ?_, ?_⟩
  · intro players hnodup i
    have hfind : players.findIdx? (fun p => some players[i].user_id == some p.user_id) =
        some i.val := by
      rw [List.findIdx?_eq_some_iff_getElem]
      refine ⟨i.isLt, by simp, ?_⟩
      intro j hj
      simp only [beq_iff_eq, Option.some.injEq, Bool.not_eq_true, decide_eq_false_iff_not]
      intro hje
      have hji : j < ((players.map fun p => p.user_id).length) := by
        rw [List.length_map]
        exact Nat.lt_trans hj i.isLt
      have hii : i.val < ((players.map fun p => p.user_id).length) := by
        rw [List.length_map]
        exact i.isLt
      have hinj := @List.Nodup.getElem_inj_iff _ _ hnodup j hji i.val hii
      simp only [List.getElem_map] at hinj
      have := hinj.mp (by simpa using hje.symm)
      omega
    unfold nextTurnPlayer nextTurnIndex
    rw [hfind]
  · intro players currentId h
    have hfind : players.findIdx? (fun p => currentId == some p.user_id) = none := by
      rw [List.findIdx?_eq_none_iff]
      intro x hx
      simpa [beq_iff_eq] using fun he => (h x hx) he.symm
    unfold nextTurnPlayer nextTurnIndex
    rw [hfind]
  · intro players currentId hne
    exact nextTurnPlayer_isSome players currentId hne

/-- C6 witness: three players with turn order 0, 1, 2 — advancing from
`player[1]` yields `player[2]`, advancing from `player[2]` wraps to
`player[0]`, and a departed current player falls back to `player[0]`,
all through `C6_next_turn`. -/
theorem C6_next_turn_witness :
    nextTurnPlayer [⟨"h", 0⟩, ⟨"a", 1⟩, ⟨"b", 2⟩] (some "a") = some ⟨"b", 2⟩
    ∧ nextTurnPlayer [⟨"h", 0⟩, ⟨"a", 1⟩, ⟨"b", 2⟩] (some "b") = some ⟨"h", 0⟩
    ∧ nextTurnPlayer [⟨"h", 0⟩, ⟨"a", 1⟩, ⟨"b", 2⟩] (some "gone") = some ⟨"h", 0⟩ :=
  ⟨(C6_next_turn.1 [⟨"h", 0⟩, ⟨"a", 1⟩, ⟨"b", 2⟩] (by decide) ⟨1, by decide⟩).trans
      (by decide),
   (C6_next_turn.1 [⟨"h", 0⟩, ⟨"a", 1⟩, ⟨"b", 2⟩] (by decide) ⟨2, by decide⟩).trans
      (by decide),
   (C6_next_turn.2.1 [⟨"h", 0⟩, ⟨"a", 1⟩, ⟨"b", 2⟩] (some "gone") (by decide)).trans
      (by decide)⟩


/-! ## Word submission (C7)

`handleWordSubmit` of the live `GameRoom` page, as a function of the
explicit state it reads: the room, the submitting user, the `isMyTurn` /
`isSubmitting` flags, the remaining `timeLeft`, the verdict of the
external-dictionary pre-validation (`validateWord(trimmedWord).isValid`),
whether an active round row exists, the recorded moves of the room (the
duplicate query), and the raw word. Its effect is the list of inserted
`game_moves` rows, whether the room's `current_player_turn` was written,
and the written value. -/

/-- One inserted `game_moves` row, with the columns the engine computes. -/
structure MoveInsert where
  word : String
  normalized_word : String
  is_valid : Bool
  validation_reason : String
  time_taken_ms : Int
  points_awarded : Int
  chain_valid : Bool
deriving Repr, DecidableEq

/-- The observable effect of one submission: inserted move rows, whether
the turn was advanced, and the new turn holder. -/
structure SubmitResult where
  insertedMoves : List MoveInsert
  turnAdvanced : Bool
  newTurn : Option String
deriving Repr, DecidableEq

/-- The chain test of `handleWordSubmit`: `if (room.last_word)` (JS
truthiness — absent or empty string skips the check), then
`room.last_word.slice(-1).toLowerCase() !== normalizedWord.charAt(0)`.
Note the last character is taken from the *raw* stored word. -/
def chainFailedClient (lastWord : Option String) (normalizedWord : String) : Bool :=
  match lastWord with
  | some lw =>
    if lw = "" then false
    else decide (normalizedWord.take 1 ≠ jsToLower (lw.takeRight 1))
  | none => false

/-- The `game_moves` row built by `handleWordSubmit` once all pre-checks
passed: chain check, then duplicate check over all recorded moves of the
room, then points (`normalizedWord.length + speedBonus` when valid and
non-empty), inserted with `points_awarded = isValid ? points : 0` and
`chain_valid = isValid`. `timeTaken = (room.round_time_seconds -
timeLeft) * 1000`. -/
def submittedMove (room : Room) (timeLeft : Int) (priorMoves : List Move)
    (word : String) : MoveInsert :=
  let trimmedWord := jsTrim word
  let timeTaken := (room.round_time_seconds - timeLeft) * 1000
  let normalizedWord := jsNormalize word
  let chainFailed : Bool := chainFailedClient room.last_word normalizedWord
  let isValid₁ := !chainFailed
  let reason₁ := if chainFailed then "chain_mismatch" else "valid"
  let dup := isValid₁ && isDuplicate priorMoves normalizedWord
  let isValid₂ := isValid₁ && !dup
  let reason₂ := if dup then "duplicate_word" else reason₁
  let points : Int :=
    if isValid₂ && normalizedWord.length > 0 then
      normalizedWord.length + mpSpeedBonus room.round_time_seconds timeTaken
    else 0
  ⟨trimmedWord, normalizedWord, isValid₂, reason₂, timeTaken,
    if isValid₂ then points else 0, isValid₂⟩

/-- `handleWordSubmit` (live `GameRoom` page). The early returns — not my
turn or already submitting, empty after trim, external dictionary
rejected, no active round, submitting player not in the room — leave the
store untouched and do not advance the turn. Otherwise exactly one move
row is inserted and `current_player_turn` is advanced to the player after
the submitter, whether or not the word was valid. -/
def handleWordSubmit (room : Room) (me : String) (isMyTurn isSubmitting : Bool)
    (timeLeft : Int) (externalValid roundExists : Bool) (priorMoves : List Move)
    (word : String) : SubmitResult :=
  if !isMyTurn || isSubmitting then ⟨[], false, none⟩
  else if jsTrim word = "" then ⟨[], false, none⟩
  else if !externalValid then ⟨[], false, none⟩
  else if !roundExists then ⟨[], false, none⟩
  else match room.players.find? (fun p => p.user_id == me) with
    | none => ⟨[], false, none⟩
    | some _ =>
      ⟨[submittedMove room timeLeft priorMoves word],
        true, (nextTurnPlayer room.players (some me)).map fun p => p.user_id⟩

example :
    handleWordSubmit
      { host_id := "h", round_time_seconds := 15, status := .in_game,
        current_player_turn := some "a", last_word := some "CYBER",
        players := [⟨"h", 0⟩, ⟨"a", 1⟩] }
      "a" true false 10 true true [⟨"cyber", true⟩] "Rain" =
    ⟨[⟨"Rain", "rain", true, "valid", 5000,
        4 + mpSpeedBonus 15 5000, true⟩], true, some "h"⟩ := by decide

/-- C7 counterexample. The claim states that *every* submission — also one
whose outcome is `not_in_dictionary` — appends exactly one Move row with
that reason and still advances the turn. In the code the external
dictionary verdict is a pre-check: a dictionary-invalid word returns
early, inserting *no* move row and leaving the turn where it was (the
player may retry), here on a concrete in-game room. -/
theorem C7_counterexample :
    handleWordSubmit
      { host_id := "h", round_time_seconds := 15, status := RoomStatus.in_game,
        current_player_turn := some "a", last_word := some "CYBER",
        players := [⟨"h", 0⟩, ⟨"a", 1⟩] }
      "a" true false 10 false true [] "xyzzyq" = ⟨[], false, none⟩ := by decide

/-- C7 (amended). Submissions rejected by the client-side pre-checks —
not the submitter's turn or a submission already in flight, empty after
trim, external-dictionary invalid, no active round, or the submitter not
found among the room's players — insert no Move row and do not advance
the turn. Every submission that passes the pre-checks inserts exactly one
Move row whose `validation_reason` is `valid`, `chain_mismatch` or
`duplicate_word`, with `points_awarded = 0` whenever the move is invalid,
and the turn still advances to the player after the submitter even on an
invalid submission. -/
theorem C7_submission_effects :
    (∀ (room : Room) (me : String) (isMyTurn isSubmitting : Bool) (timeLeft : Int)
      (externalValid roundExists : Bool) (priorMoves : List Move) (word : String),
      (isMyTurn = false ∨ isSubmitting = true ∨ jsTrim word = "" ∨
        externalValid = false ∨ roundExists = false ∨
        room.players.find? (fun p => p.user_id == me) = none) →
      handleWordSubmit room me isMyTurn isSubmitting timeLeft externalValid
        roundExists priorMoves word = ⟨[], false, none⟩)
    ∧ (∀ (room : Room) (me : String) (timeLeft : Int) (priorMoves : List Move)
      (word : String) (pl : Player),
      jsTrim word ≠ "" →
      room.players.find? (fun p => p.user_id == me) = some pl →
      ∃ mv : MoveInsert,
        handleWordSubmit room me true false timeLeft true true priorMoves word =
          ⟨[mv], true, (nextTurnPlayer room.players (some me)).map fun p => p.user_id⟩
        ∧ (mv.validation_reason = "valid" ∨ mv.validation_reason = "chain_mismatch"
            ∨ mv.validation_reason = "duplicate_word")
        ∧ (mv.is_valid = false → mv.points_awarded = 0)
        ∧ (nextTurnPlayer room.players (some me)).isSome = true) := by
  constructor
  · intro room me isMyTurn isSubmitting timeLeft ev re pm w h
    unfold handleWordSubmit
    rcases h with h | h | h | h | h | h <;> simp [h]
  · intro room me timeLeft pm w pl hw hfind
    have hne : room.players ≠ [] := by
      intro hnil
      rw [hnil] at hfind
      simp at hfind
    refine ⟨submittedMove room timeLeft pm w, ?_, ?_, ?_,
      nextTurnPlayer_isSome room.players (some me) hne⟩
    · simp [handleWordSubmit, hw, hfind]
    · unfold submittedMove
      by_cases hc : chainFailedClient room.last_word (jsNormalize w) = true <;>
        by_cases hd : isDuplicate pm (jsNormalize w) = true <;>
        simp [hc, hd]
    · unfold submittedMove
      simp only
      by_cases hc : chainFailedClient room.last_word (jsNormalize w) = true <;>
        by_cases hd : isDuplicate pm (jsNormalize w) = true <;>
        simp [hc, hd]

/-- C7 witness: on a concrete room, a chain-violating submission
(`"storm"` after `"CYBER"`) still inserts exactly one move row and
advances the turn, through `C7_submission_effects`; a direct evaluation
confirms the recorded reason `chain_mismatch` with 0 points and the turn
handed to the other player. -/
theorem C7_submission_effects_witness :
    (handleWordSubmit
      { host_id := "h", round_time_seconds := 15, status := RoomStatus.in_game,
        current_player_turn := some "a", last_word := some "CYBER",
        players := [⟨"h", 0⟩, ⟨"a", 1⟩] }
      "a" true false 10 true true [⟨"cyber", true⟩] "storm").insertedMoves.length = 1
    ∧ (handleWordSubmit
      { host_id := "h", round_time_seconds := 15, status := RoomStatus.in_game,
        current_player_turn := some "a", last_word := some "CYBER",
        players := [⟨"h", 0⟩, ⟨"a", 1⟩] }
      "a" true false 10 true true [⟨"cyber", true⟩] "storm").turnAdvanced = true
    ∧ handleWordSubmit
      { host_id := "h", round_time_seconds := 15, status := RoomStatus.in_game,
        current_player_turn := some "a", last_word := some "CYBER",
        players := [⟨"h", 0⟩, ⟨"a", 1⟩] }
      "a" true false 10 true true [⟨"cyber", true⟩] "storm" =
      ⟨[⟨"storm", "storm", false, "chain_mismatch", 5000, 0, false⟩], true, some "h"⟩ := by
  obtain ⟨mv, heq, -, -, -⟩ := C7_submission_effects.2
    { host_id := "h", round_time_seconds := 15, status := RoomStatus.in_game,
      current_player_turn := some "a", last_word := some "CYBER",
      players := [⟨"h", 0⟩, ⟨"a", 1⟩] }
    "a" 10 [⟨"cyber", true⟩] "storm" ⟨"a", 1⟩ (by decide) (by decide)
  refine ⟨?_, ?_, by decide⟩
  · rw [heq]
    rfl
  · rw [heq]


/-! ## Timeout vs. submission race (C8)

The client is a single-threaded event loop: synchronous blocks run to
completion, and other callbacks (the 1-second countdown interval) can run
only at `await` suspension points. `handleWordSubmit` has two suspension
points *before* it clears the countdown: the `validateWord` network call
and the active-round fetch; `clearInterval` happens only after both, at
the begin of the commit. `handleTurnTimeout` (fired by the interval when
the countdown reaches 0) clears the interval, checks `isMyTurn`, and
advances the turn. The model below has one atomic action per synchronous
block, translated from the live `GameRoom` page:

* `subBegin` — `handleWordSubmit` entry: the `isMyTurn && !isSubmitting`
  guard passes, `setIsSubmitting(true)`, then suspend on `validateWord`.
* `subFetch` — the dictionary verdict arrives (valid), then suspend on
  the round/player fetch.
* `subCommit` — the fetch arrives; `clearInterval(timerRef)`; the move is
  inserted, points awarded, `setIsMyTurn(false)` and the room's
  `current_player_turn` advanced.
* `timerFire` — the countdown expires while the interval is alive:
  `handleTurnTimeout` clears the interval and, since `isMyTurn` is still
  true, runs `nextTurn()` — a turn advance.

`advances` counts executed turn-advance operations (writes of
`current_player_turn` with a broadcast); `movesCommitted` counts
committed move inserts. -/

structure RaceState where
  isMyTurn : Bool
  isSubmitting : Bool
  timerCleared : Bool
  subPhase : Nat
  advances : Nat
  movesCommitted : Nat
deriving Repr, DecidableEq

inductive RaceAction
  | subBegin
  | subFetch
  | subCommit
  | timerFire
deriving Repr, DecidableEq

/-- Initial state of an active turn of the submitting player: the
countdown interval is live, no submission in flight. -/
def raceInit : RaceState :=
  ⟨true, false, false, 0, 0, 0⟩

/-- One atomic event-loop block. Actions whose enabling condition does
not hold (wrong phase, or the interval already cleared) are no-ops. -/
def raceStep (s : RaceState) (a : RaceAction) : RaceState :=
  match a with
  | RaceAction.subBegin =>
    if s.subPhase = 0 ∧ s.isMyTurn ∧ ¬s.isSubmitting then
      { s with isSubmitting := true, subPhase := 1 }
    else s
  | RaceAction.subFetch =>
    if s.subPhase = 1 then { s with subPhase := 2 } else s
  | RaceAction.subCommit =>
    if s.subPhase = 2 then
      { s with timerCleared := true, movesCommitted := s.movesCommitted + 1,
               advances := s.advances + 1, isMyTurn := false, subPhase := 3 }
    else s
  | RaceAction.timerFire =>
    if ¬s.timerCleared then
      { s with timerCleared := true,
               advances := s.advances + (if s.isMyTurn then 1 else 0) }
    else s

/-- C8. The clear-timer step is *not* atomic with begin-commit: when the
countdown expires during one of the two awaited suspension points of
`handleWordSubmit` (schedule `subBegin, subFetch, timerFire, subCommit`),
the timeout advance runs — `isMyTurn` is still true — and the in-flight
submission then clears the already-cleared interval and commits anyway:
the move is inserted, points are awarded, and a second turn-advance write
is performed. Both of timeout-advance and submission-commit take effect
and two turn-advance operations execute, where the claim demands exactly
one. Only when the commit (which clears the timer) runs before the expiry
(schedule `subBegin, subFetch, subCommit, timerFire`) is the advance
unique. -/
theorem C8_timeout_race :
    ((List.foldl raceStep raceInit
      [RaceAction.subBegin, RaceAction.subFetch, RaceAction.timerFire,
        RaceAction.subCommit]).advances = 2
    ∧ (List.foldl raceStep raceInit
      [RaceAction.subBegin, RaceAction.subFetch, RaceAction.timerFire,
        RaceAction.subCommit]).movesCommitted = 1)
    ∧ (List.foldl raceStep raceInit
      [RaceAction.subBegin, RaceAction.subFetch, RaceAction.subCommit,
        RaceAction.timerFire]).advances = 1 := by
  decide

/-! ## Sync coordinator debounce (C9)

`fetchCompleteRoomData` in `src/hooks/useGameSync.ts`, modelled as a
state machine over (`lastFetchTimeRef`, the pending `fetchTimeoutRef`,
and the list of performed authoritative re-reads). The fetch itself is
modelled as completing instantly (its `isRefreshing` in-flight guard and
the unmount guard are never triggered in this model). The debounce
branch defers a call made less than 300 ms after the last fetch to
`lastFetchTime + 300` (`setTimeout(·, 300 - timeSinceLastFetch)`),
clearing any previously scheduled retry; performing a fetch does *not*
clear a pending retry. Every change-notification and broadcast handler
of `setupRealtimeSync` calls `fetchCompleteRoomData(true)`. -/

structure SyncState where
  lastFetchTime : Int
  pending : Option Int
  fetches : List Int
deriving Repr, DecidableEq

/-- `fetchCompleteRoomData(immediate)` called at time `now`: when not
immediate and within 300 ms of the last fetch, (re)schedule the deferred
retry at `lastFetchTime + 300`; otherwise perform the authoritative
re-read now. -/
def fetchCompleteRoomData (s : SyncState) (now : Int) (immediate : Bool) : SyncState :=
  if ¬immediate ∧ now - s.lastFetchTime < 300 then
    { s with pending := some (s.lastFetchTime + 300) }
  else
    { s with lastFetchTime := now, fetches := s.fetches ++ [now] }

/-- Process one external call `(time, immediate)`: first fire a pending
deferred retry that is due (`setTimeout` runs `fetchCompleteRoomData(true)`),
then run the call. -/
def syncStep (s : SyncState) (e : Int × Bool) : SyncState :=
  let s₁ :=
    match s.pending with
    | some tp =>
      if tp ≤ e.1 then fetchCompleteRoomData { s with pending := none } tp true else s
    | none => s
  fetchCompleteRoomData s₁ e.1 e.2

/-- Fire the still-pending deferred retry, if any, at the end of a run. -/
def finishSync (s : SyncState) : SyncState :=
  match s.pending with
  | some tp => fetchCompleteRoomData { s with pending := none } tp true
  | none => s

/-- Run a time-ordered list of calls from the initial state
(`lastFetchTimeRef.current = 0`, nothing pending), firing a still-pending
deferred retry at the end. -/
def runSync (events : List (Int × Bool)) : SyncState :=
  finishSync (events.foldl syncStep ⟨0, none, []⟩)

/-- All-immediate runs never defer: one re-read per call. -/
theorem foldl_syncStep_immediate (events : List (Int × Bool))
    (h : ∀ e ∈ events, e.2 = true) (s : SyncState) (hp : s.pending = none) :
    (events.foldl syncStep s).fetches = s.fetches ++ events.map Prod.fst
    ∧ (events.foldl syncStep s).pending = none := by
  induction events generalizing s with
  | nil => simp [hp]
  | cons e es ih =>
    have he : e.2 = true := h e (List.mem_cons_self e es)
    have hstep : syncStep s e =
        { lastFetchTime := e.1, pending := none, fetches := s.fetches ++ [e.1] } := by
      unfold syncStep fetchCompleteRoomData
      simp [he, hp]
    rw [List.foldl_cons, hstep]
    have ih' := ih (fun x hx => h x (List.mem_cons_of_mem e hx))
      { lastFetchTime := e.1, pending := none, fetches := s.fetches ++ [e.1] } rfl
    simpa using ih'

/-- C9 counterexample. Three change notifications 100 ms apart: every
notification handler in `setupRealtimeSync` calls
`fetchCompleteRoomData(true)`, so each one performs its own authoritative
re-read — three re-reads, where the claim requires a single debounced
one. -/
theorem C9_counterexample :
    (runSync [(1000, true), (1100, true), (1200, true)]).fetches =
      [1000, 1100, 1200] := by decide

/-- C9 (amended). A re-read requested with the immediate flag always runs
at once, and every change-notification handler requests immediate
re-reads — so a burst of notifications produces one authoritative re-read
per notification, not a single debounced one. The ≈300 ms debounce exists
only for calls made without the immediate flag: such a call within 300 ms
of the last fetch performs no re-read and (re)schedules the single
deferred re-read at `lastFetchTime + 300`, so a non-immediate burst
collapses into one deferred re-read. -/
theorem C9_sync_debounce :
    (∀ (s : SyncState) (t : Int),
      fetchCompleteRoomData s t true =
        { s with lastFetchTime := t, fetches := s.fetches ++ [t] })
    ∧ (∀ (s : SyncState) (t : Int), t - s.lastFetchTime < 300 →
      fetchCompleteRoomData s t false = { s with pending := some (s.lastFetchTime + 300) })
    ∧ (∀ (s : SyncState) (t : Int), ¬(t - s.lastFetchTime < 300) →
      fetchCompleteRoomData s t false =
        { s with lastFetchTime := t, fetches := s.fetches ++ [t] })
    ∧ (∀ events : List (Int × Bool), (∀ e ∈ events, e.2 = true) →
      (runSync events).fetches = events.map Prod.fst)
    ∧ (runSync [(1000, false), (1100, false), (1200, false)]).fetches =
      [1000, 1300] := by
  refine ⟨?_, ?_, ?_, ?_, by decide⟩
  · intro s t
    simp [fetchCompleteRoomData]
  · intro s t h
    simp [fetchCompleteRoomData, h]
  · intro s t h
    simp [fetchCompleteRoomData, h]
  · intro events h
    have hfold := foldl_syncStep_immediate events h ⟨0, none, []⟩ rfl
    unfold runSync finishSync
    rw [hfold.2]
    simpa using hfold.1

/-- C9 witness: two immediate calls 50 ms apart both run (via the
all-immediate conjunct of `C9_sync_debounce`), and a non-immediate call
100 ms after a fetch at time 0 is deferred to time 300 (via the debounce
conjunct). -/
theorem C9_sync_debounce_witness :
    (runSync [(500, true), (550, true)]).fetches = [500, 550]
    ∧ fetchCompleteRoomData ⟨0, none, []⟩ 100 false = ⟨0, some 300, []⟩ :=
  ⟨(C9_sync_debounce.2.2.2.1 [(500, true), (550, true)] (by decide)).trans (by decide),
   (C9_sync_debounce.2.1 ⟨0, none, []⟩ 100 (by decide)).trans (by decide)⟩

/-! ## External dictionary validator (C10)

`validateWord` of the `useExternalDictionary` hook, with every external
interaction — the two dictionary HTTP APIs, a thrown network error, and
the local common-word fallback list — supplied as an oracle record. JS
`word.length` counts UTF-16 code units and the Lean model counts code
points; they agree on all ASCII input. -/

/-- The hook's `DictionaryResponse`. -/
structure DictionaryResponse where
  isValid : Bool
  definition : Option String
  error : Option String
deriving Repr, DecidableEq

/-- External collaborators of `validateWord`: the Free Dictionary API
response (`response.ok` and the extracted definition), the Merriam-Webster
backup (`response.ok` and whether it returned a non-empty object array),
whether the fetches threw, and the local common-word list. -/
structure DictOracle where
  primaryOk : Bool
  primaryDefinition : Option String
  backupOk : Bool
  backupNonEmptyObjectArray : Bool
  networkThrows : Bool
  commonWords : List String
deriving Repr, DecidableEq

/-- `validateWord` (`useExternalDictionary`): reject empty/short raw input
(`!word || word.length < 2`), then empty-after-normalization input, then
consult the primary API, the backup API, and finally the local word list;
a thrown fetch falls back to the local word list with the
service-unavailable error. -/
def validateWord (o : DictOracle) (word : String) : DictionaryResponse :=
  if word = "" ∨ word.length < 2 then ⟨false, none, some "Word too short"⟩
  else
    let normalizedWord := jsNormalize word
    if normalizedWord = "" then ⟨false, none, some "Invalid word format"⟩
    else if o.networkThrows then
      let ok := o.commonWords.contains normalizedWord
      ⟨ok, none, if ok then none else some "Dictionary service unavailable"⟩
    else if o.primaryOk then
      ⟨true, some (o.primaryDefinition.getD "Valid word"), none⟩
    else if o.backupOk && o.backupNonEmptyObjectArray then
      ⟨true, some "Valid word", none⟩
    else
      let ok := o.commonWords.contains normalizedWord
      ⟨ok, none, if ok then none else some "Word not found in dictionary"⟩

/-- C10. Every raw input shorter than 2 characters is rejected as invalid
with error `Word too short`, and the result does not depend on the oracle
at all — neither the remote dictionaries nor the local word list are
consulted, so a one-letter word is never dictionary-valid even when some
dictionary contains it. -/
theorem C10_short_word (o : DictOracle) (word : String) (h : word.length < 2) :
    validateWord o word = ⟨false, none, some "Word too short"⟩
    ∧ ∀ o₂ : DictOracle, validateWord o word = validateWord o₂ word := by
  have hc : word = "" ∨ word.length < 2 := Or.inr h
  constructor
  · unfold validateWord
    rw [if_pos hc]
  · intro o₂
    unfold validateWord
    rw [if_pos hc, if_pos hc]

/-- C10 witness: the one-letter word `"a"` is rejected even by an oracle
whose primary API accepts and whose word list contains `"a"`, and the
result equals the one under a failing oracle — via `C10_short_word`. -/
theorem C10_short_word_witness :
    validateWord ⟨true, some "first letter", true, true, false, ["a"]⟩ "a" =
      ⟨false, none, some "Word too short"⟩
    ∧ validateWord ⟨true, some "first letter", true, true, false, ["a"]⟩ "a" =
      validateWord ⟨false, none, false, false, true, []⟩ "a" :=
  ⟨(C10_short_word ⟨true, some "first letter", true, true, false, ["a"]⟩ "a"
      (by decide)).1,
   (C10_short_word ⟨true, some "first letter", true, true, false, ["a"]⟩ "a"
      (by decide)).2 ⟨false, none, false, false, true, []⟩⟩

end WordWave
